import Mathlib

/-!
Verification of the binance-mcp-server core (rate limiting, dispatch,
validation, response formatting) against its natural-language specification.

The Python source (`binance_mcp_server/utils.py` and the tool modules
`create_order.py` / `get_orders.py`) is shallowly embedded below:

* floating-point token counts and wall-clock instants are modelled as `ℚ`
  (the Python code only ever adds, subtracts, multiplies, divides and
  compares these quantities, so rationals model the intended real-number
  behaviour exactly);
* `time.time()` reads become explicit `now : ℚ` parameters threaded through
  the state-passing functions;
* Python exceptions become `Except`/sum results; the exchange client is an
  explicit parameter describing the outcome of the one RPC a tool performs;
* wall-clock `timestamp` fields of response envelopes are not modelled
  (no claim mentions them);
* Python `str` is modelled by Lean `String`; the `re.sub` calls of the
  message sanitizer are implemented as direct left-to-right scanners with
  the exact semantics of the five concrete patterns used by the source.
-/

/-! ## Token bucket: `WeightedRateLimiter` (utils.py lines 155-188) -/

/-- State of `WeightedRateLimiter`: `capacity`, `refill_rate` (tokens per
second), current `tokens`, and `last_refill` timestamp. -/
structure WeightedRateLimiter where
  capacity : ℤ
  refill_rate : ℚ
  tokens : ℚ
  last_refill : ℚ
  deriving Repr, DecidableEq

/-- `WeightedRateLimiter.__init__`: `capacity = max(1, capacity)`,
`refill_rate = max(1, refill_per_minute) / 60.0`, `tokens = float(capacity)`,
`last_refill = time.time()` (the construction instant `now`). -/
def WeightedRateLimiter.init (capacity refill_per_minute : ℤ) (now : ℚ) :
    WeightedRateLimiter :=
  { capacity := max 1 capacity
    refill_rate := ((max 1 refill_per_minute : ℤ) : ℚ) / 60
    tokens := ((max 1 capacity : ℤ) : ℚ)
    last_refill := now }

/-- `WeightedRateLimiter._refill`: if no time elapsed, return unchanged;
otherwise clamp `tokens + elapsed * refill_rate` to `capacity` and advance
`last_refill`. -/
def WeightedRateLimiter._refill (st : WeightedRateLimiter) (now : ℚ) :
    WeightedRateLimiter :=
  let elapsed := now - st.last_refill
  if elapsed ≤ 0 then st
  else { st with
          tokens := min (st.capacity : ℚ) (st.tokens + elapsed * st.refill_rate)
          last_refill := now }

/-- `WeightedRateLimiter.try_consume`: refill, coerce the cost with
`c = max(1, int(cost))`, then subtract and answer `true` iff `tokens >= c`. -/
def WeightedRateLimiter.try_consume (st : WeightedRateLimiter) (cost : ℤ)
    (now : ℚ) : WeightedRateLimiter × Bool :=
  let st1 := st._refill now
  let c := max 1 cost
  if (c : ℚ) ≤ st1.tokens then ({ st1 with tokens := st1.tokens - (c : ℚ) }, true)
  else (st1, false)

/-- `WeightedRateLimiter.refund`: add `max(1, int(cost))` tokens back,
clamped to capacity.  (No refill is performed here.) -/
def WeightedRateLimiter.refund (st : WeightedRateLimiter) (cost : ℤ) :
    WeightedRateLimiter :=
  let c := max 1 cost
  { st with tokens := min (st.capacity : ℚ) (st.tokens + (c : ℚ)) }

/-! ## `MultiWindowRateLimiter` (utils.py lines 589-604) -/

/-- State of `MultiWindowRateLimiter`: a per-minute and a per-second bucket. -/
structure MultiWindowRateLimiter where
  minute : WeightedRateLimiter
  second : WeightedRateLimiter
  deriving Repr, DecidableEq

/-- `MultiWindowRateLimiter.__init__`: the minute bucket refills at
`per_minute` per minute, the second bucket has capacity `per_second` and
refills at `per_second * 60` per minute. -/
def MultiWindowRateLimiter.init (per_minute per_second : ℤ) (now : ℚ) :
    MultiWindowRateLimiter :=
  { minute := WeightedRateLimiter.init per_minute per_minute now
    second := WeightedRateLimiter.init per_second (per_second * 60) now }

/-- `MultiWindowRateLimiter.try_consume`: consume from the second bucket
first; on its failure stop.  Then consume from the minute bucket; on its
failure refund the second bucket.  The two inner `time.time()` reads become
`now1` (second bucket) and `now2` (minute bucket). -/
def MultiWindowRateLimiter.try_consume (st : MultiWindowRateLimiter)
    (cost : ℤ) (now1 now2 : ℚ) : MultiWindowRateLimiter × Bool :=
  let r1 := st.second.try_consume cost now1
  if r1.2 = false then ({ st with second := r1.1 }, false)
  else
    let r2 := st.minute.try_consume cost now2
    if r2.2 = false then ({ minute := r2.1, second := r1.1.refund cost }, false)
    else ({ minute := r2.1, second := r1.1 }, true)

/-- Operations a client can perform on a single bucket (used to state the
"any sequence of operations" invariant). -/
inductive LimOp where
  | consume (cost : ℤ) (now : ℚ)
  | refundOp (cost : ℤ)
  deriving Repr, DecidableEq

/-- Apply one operation to a bucket, discarding the boolean answer. -/
def applyLimOp (st : WeightedRateLimiter) : LimOp → WeightedRateLimiter
  | .consume cost now => (st.try_consume cost now).1
  | .refundOp cost => st.refund cost

/-- The bucket invariant: capacity at least one, nonnegative refill rate,
and a token count within `[0, capacity]`. -/
def BucketInv (st : WeightedRateLimiter) : Prop :=
  1 ≤ st.capacity ∧ 0 ≤ st.refill_rate ∧ 0 ≤ st.tokens ∧
    st.tokens ≤ (st.capacity : ℚ)

/-! ## Character classes (ASCII reading of Python `str` predicates and of
the regex classes `[A-Za-z0-9]`, `\w`, `\s`, `[:\s=]`, `[_\s-]`) -/

/-- `[A-Za-z0-9]` / ASCII `str.isalnum` for a single character. -/
def isAlnumA (c : Char) : Bool := c.isAlpha || c.isDigit

/-- Regex word character `\w` (alphanumeric or underscore), the class the
`\b` word-boundary assertion is defined from. -/
def isWordC (c : Char) : Bool := isAlnumA c || c = '_'

/-- The regex class `[:\s=]` used between a keyword and its value. -/
def isSepKV (c : Char) : Bool := c = ':' || c.isWhitespace || c = '='

/-- The regex class `[_\s-]` allowed between `api` and `key`. -/
def isSepAK (c : Char) : Bool := c = '_' || c.isWhitespace || c = '-'

/-! ## Input validators (utils.py lines 347-549) -/

/-- Python `str.strip()` (ASCII whitespace reading): drop whitespace from
both ends. -/
def pyStrip (l : List Char) : List Char :=
  ((l.dropWhile Char.isWhitespace).reverse.dropWhile Char.isWhitespace).reverse

/-- Python `str.isalnum()`: nonempty and every character alphanumeric. -/
def pyIsAlnum (l : List Char) : Bool := !l.isEmpty && l.all isAlnumA

/-- Python `str.isdigit()`: nonempty and every character a digit. -/
def pyIsDigit (l : List Char) : Bool := !l.isEmpty && l.all Char.isDigit

/-- `startswith(('0', ..., '9'))`: the first character is a digit. -/
def headIsDigit (l : List Char) : Bool :=
  match l with
  | [] => false
  | c :: _ => c.isDigit

/-- `validate_symbol` (utils.py lines 347-387): reject empty input;
uppercase and strip; enforce trimmed length in `[3, 20]`; drop
non-alphanumeric characters; re-check a minimum length of 3; reject a
symbol that starts with a digit or is purely numeric; otherwise return the
sanitized symbol.  `ValueError` becomes `Except.error` with the raised
message. -/
def validate_symbol (symbol : String) : Except String String :=
  if symbol.data.isEmpty then .error "Symbol must be a non-empty string"
  else
    let s := pyStrip (symbol.data.map Char.toUpper)
    if s.length < 3 then .error "Symbol must be at least 3 characters long"
    else if 20 < s.length then .error "Symbol must be less than 20 characters long"
    else
      let sanitized := s.filter isAlnumA
      if sanitized.length < 3 then
        .error "Symbol must be at least 3 characters long after removing special characters"
      else if !pyIsAlnum sanitized then
        .error "Symbol must contain only alphanumeric characters"
      else if headIsDigit sanitized || pyIsDigit sanitized then
        .error "Symbol cannot start with a number or be purely numeric"
      else .ok (String.mk sanitized)

/-- `validate_and_get_order_side` (utils.py lines 427-451): uppercase and
strip, then match `BUY`/`SELL` (the client constants are those strings). -/
def validate_and_get_order_side (side : String) : Except String String :=
  if side.data.isEmpty then .error "Order side must be a non-empty string"
  else
    let s := String.mk (pyStrip (side.data.map Char.toUpper))
    if s = "BUY" then .ok "BUY"
    else if s = "SELL" then .ok "SELL"
    else .error "Invalid order side. Must be 'BUY' or 'SELL'."

/-- The keys of `valid_order_types` (utils.py lines 474-482); each maps to
the client constant carrying the same string. -/
def validOrderTypes : List String :=
  ["LIMIT", "MARKET", "STOP_LOSS", "STOP_LOSS_LIMIT", "TAKE_PROFIT",
   "TAKE_PROFIT_LIMIT", "LIMIT_MAKER"]

/-- `validate_and_get_order_type` (utils.py lines 454-488). -/
def validate_and_get_order_type (order_type : String) : Except String String :=
  if order_type.data.isEmpty then .error "Order type must be a non-empty string"
  else
    let s := String.mk (pyStrip (order_type.data.map Char.toUpper))
    if s ∈ validOrderTypes then .ok s
    else .error ("Invalid order type. Must be one of: " ++
      String.intercalate ", " validOrderTypes)

/-- `validate_limit_parameter` (utils.py lines 523-549): `None` is valid
and passed through; a present integer must be strictly positive and at most
`max_limit` (default 5000). -/
def validate_limit_parameter (limit : Option ℤ) (max_limit : ℤ) :
    Except String (Option ℤ) :=
  match limit with
  | none => .ok none
  | some l =>
    if l ≤ 0 then .error "Limit must be greater than 0"
    else if max_limit < l then
      .error ("Limit must be less than or equal to " ++ toString max_limit)
    else .ok (some l)

/-! ## Depth weight estimation (utils.py lines 615-632) -/

/-- The argument of `estimate_weight_for_depth`: Python's `Optional[int]`
plus the possibility that `int(limit)` raises on an unparsable value. -/
inductive DepthArg where
  | absent
  | unparsable
  | intVal (l : ℤ)
  deriving Repr, DecidableEq

/-- `estimate_weight_for_depth`: `None` and unparsable inputs weigh 5;
otherwise the step table `≤50 → 2`, `≤100 → 5`, `≤500 → 10`, `≤1000 → 20`,
else `50`. -/
def estimate_weight_for_depth : DepthArg → ℤ
  | .absent => 5
  | .unparsable => 5
  | .intVal l =>
    if l ≤ 50 then 2
    else if l ≤ 100 then 5
    else if l ≤ 500 then 10
    else if l ≤ 1000 then 20
    else 50

/-! ## Error-message sanitization (utils.py lines 222-278)

`_sanitize_error_message` applies five `re.sub(pattern, '[REDACTED]', s)`
passes in order:

1. `\b[A-Za-z0-9]{32,}\b`
2. `(?i)api[_\s-]*key[:\s=]*[A-Za-z0-9]+`
3. `(?i)secret[:\s=]*[A-Za-z0-9]+`
4. `(?i)token[:\s=]*[A-Za-z0-9]+`
5. `(?i)password[:\s=]*[A-Za-z0-9]+`

Each is implemented as a left-to-right scanner replacing leftmost
non-overlapping matches, exactly as `re.sub` does.  For pattern 1 a match
at a position is: the position lies at a word boundary, the maximal
alphanumeric run there has length ≥ 32, and the run is followed by a word
boundary; greedy matching with backtracking cannot succeed anywhere else
because every character of the run is a word character.  For patterns 2-5
the greedy `[_\s-]*` / `[:\s=]*` loops never need backtracking since their
classes are disjoint from the characters that must follow them.  The
scanners carry a `fuel` argument bounded by the string length; every match
consumes at least one character, so the fuel never runs out. -/

/-- The replacement text of every `re.sub` call. -/
def redactedL : List Char := "[REDACTED]".data

/-- Word-boundary test on the left of a match: the previous character (if
any) is not a word character. -/
def prevBoundary : Option Char → Bool
  | none => true
  | some p => !isWordC p

/-- Word-boundary test on the right of a match: the next character (if
any) is not a word character. -/
def nextBoundary : List Char → Bool
  | [] => true
  | d :: _ => !isWordC d

/-- Scanner for pattern 1, `\b[A-Za-z0-9]{32,}\b`.  `prev` is the original
character preceding the current position. -/
def reSub1F : ℕ → Option Char → List Char → List Char
  | 0, _, s => s
  | _ + 1, _, [] => []
  | fuel + 1, prev, c :: cs =>
    let run := List.takeWhile isAlnumA (c :: cs)
    let rest := List.drop run.length (c :: cs)
    if prevBoundary prev = true ∧ 32 ≤ run.length ∧ nextBoundary rest = true then
      redactedL ++ reSub1F fuel (some (run.getLastD c)) rest
    else
      c :: reSub1F fuel (some c) cs

/-- `re.sub` for pattern 1 on a whole string. -/
def reSub1 (s : List Char) : List Char := reSub1F s.length none s

/-- Match a literal keyword case-insensitively (the `(?i)` flag); return
the rest of the input on success. -/
def matchCI : List Char → List Char → Option (List Char)
  | [], s => some s
  | _ :: _, [] => none
  | k :: ks, c :: cs => if c.toLower = k then matchCI ks cs else none

/-- Match `[:\s=]*[A-Za-z0-9]+`: skip separator characters, then require at
least one alphanumeric character; return the rest after the greedy
alphanumeric run. -/
def matchKVTail (s : List Char) : Option (List Char) :=
  let s1 := s.dropWhile isSepKV
  let run := s1.takeWhile isAlnumA
  if run.length = 0 then none else some (s1.drop run.length)

/-- Matcher for patterns 3-5: `(?i)kw[:\s=]*[A-Za-z0-9]+`. -/
def matchKw (kw : List Char) (s : List Char) : Option (List Char) :=
  match matchCI kw s with
  | none => none
  | some s1 => matchKVTail s1

/-- Matcher for pattern 2: `(?i)api[_\s-]*key[:\s=]*[A-Za-z0-9]+`. -/
def matchApiKey (s : List Char) : Option (List Char) :=
  match matchCI "api".data s with
  | none => none
  | some s1 =>
    match matchCI "key".data (s1.dropWhile isSepAK) with
    | none => none
    | some s2 => matchKVTail s2

/-- Generic `re.sub` scanner for a keyword pattern: at every position try
the matcher; on a match emit `[REDACTED]` and continue after the match. -/
def reSubKwF (m : List Char → Option (List Char)) : ℕ → List Char → List Char
  | 0, s => s
  | _ + 1, [] => []
  | fuel + 1, c :: cs =>
    match m (c :: cs) with
    | some rest => redactedL ++ reSubKwF m fuel rest
    | none => c :: reSubKwF m fuel cs

/-- `re.sub` for a keyword pattern on a whole string. -/
def reSubKw (m : List Char → Option (List Char)) (s : List Char) : List Char :=
  reSubKwF m s.length s

/-- `_sanitize_error_message` on character lists: the five passes in the
order of the `sensitive_patterns` list. -/
def sanitizeMsgL (s : List Char) : List Char :=
  reSubKw (matchKw "password".data)
    (reSubKw (matchKw "token".data)
      (reSubKw (matchKw "secret".data)
        (reSubKw matchApiKey (reSub1 s))))

/-- `_sanitize_error_message` (utils.py lines 222-251).  The
non-`str`-input branch returning `"An error occurred"` is unreachable for
a typed `String` argument. -/
def _sanitize_error_message (message : String) : String :=
  String.mk (sanitizeMsgL message.data)

/-! ## Error details and response envelopes (utils.py lines 190-301) -/

/-- A value of a detail map: a string (which gets sanitized) or any other
Python value (passed through unchanged; an integer stands for those). -/
inductive DetailValue where
  | str (s : String)
  | int (n : ℤ)
  deriving Repr, DecidableEq

/-- The `sensitive_keys` set of `_sanitize_error_details`. -/
def sensitiveKeys : List String := ["api_key", "secret", "password", "token", "key"]

/-- Python `str.lower()` (ASCII reading), as a list traversal so that it
evaluates inside the kernel. -/
def pyLower (s : String) : String := String.mk (s.data.map Char.toLower)

/-- The per-entry transformation of `_sanitize_error_details`: a sensitive
key has its value replaced wholesale, a string value is sanitized, any
other value is kept. -/
def sanitizeDetailEntry (kv : String × DetailValue) : String × DetailValue :=
  if pyLower kv.1 ∈ sensitiveKeys then (kv.1, .str "[REDACTED]")
  else
    match kv.2 with
    | .str s => (kv.1, .str (_sanitize_error_message s))
    | v => (kv.1, v)

/-- `_sanitize_error_details` (utils.py lines 254-278): rebuild the map
entry by entry. -/
def _sanitize_error_details (details : List (String × DetailValue)) :
    List (String × DetailValue) :=
  details.map sanitizeDetailEntry

/-- The error part of an error envelope: `type`, sanitized `message`, and
an optional sanitized `details` map.  (The wall-clock `timestamp` field is
not modelled.) -/
structure ErrorInfo where
  type : String
  message : String
  details : Option (List (String × DetailValue))
  deriving Repr, DecidableEq

/-- `create_error_response` (utils.py lines 190-219): sanitize the message;
attach sanitized details only when `details` is truthy (neither `None` nor
empty). -/
def create_error_response (error_type message : String)
    (details : Option (List (String × DetailValue))) : ErrorInfo :=
  { type := error_type
    message := _sanitize_error_message message
    details :=
      match details with
      | none => none
      | some [] => none
      | some d => some (_sanitize_error_details d) }

/-- A tool response: either the success envelope's payload or an error
envelope. -/
inductive Resp (δ : Type) where
  | ok (data : δ)
  | err (e : ErrorInfo)
  deriving Repr, DecidableEq

/-- The `error.type` tag of a response, if it is an error. -/
def Resp.errType {δ : Type} : Resp δ → Option String
  | .ok _ => none
  | .err e => some e.type

/-! ## Rate-limited dispatch (utils.py lines 304-344) -/

/-- The `cost` argument of the `rate_limited` decorator: nothing, a
constant integer, or a callable of the call's arguments that may raise
(`Except.error`). -/
inductive CostSpec (α : Type) where
  | noCost
  | const (n : ℤ)
  | fn (f : α → Except Unit ℤ)

/-- Weight determination in the decorator's `wrapper`: a callable cost is
evaluated on the arguments with fallback 1 on an exception; a constant
`int` cost is floored at 1; otherwise the weight is 1. -/
def computeWeight {α : Type} : CostSpec α → α → ℤ
  | .fn f, a =>
    match f a with
    | .ok n => n
    | .error _ => 1
  | .const n, _ => max 1 n
  | .noCost, _ => 1

/-- The denial envelope built by the decorator. -/
def rateLimitEnvelope (weight : ℤ) : ErrorInfo :=
  create_error_response "rate_limit_exceeded"
    "API rate limit exceeded. Please try again later."
    (some [("weight", DetailValue.int weight)])

/-- The decorator's `wrapper` (utils.py lines 317-342), for a limiter
exposing `try_consume` (every limiter in the repository does; the legacy
`can_proceed` branch is therefore not modelled).  `tryC` is the limiter's
`try_consume`, threaded through limiter state `σ`; `func` is the wrapped
operation. -/
def rateLimitedCall {σ α β : Type} (tryC : σ → ℤ → σ × Bool) (rl : σ)
    (cost : CostSpec α) (func : α → β) (args : α) : σ × (β ⊕ ErrorInfo) :=
  let weight := computeWeight cost args
  let r := tryC rl weight
  if r.2 = true then (r.1, Sum.inl (func args))
  else (r.1, Sum.inr (rateLimitEnvelope weight))

/-! ## The two tool modules (tools/get_orders.py, tools/create_order.py) -/

/-- Outcome of the single exchange-client RPC a tool performs:
a successful payload, a `BinanceAPIException` (machine `code` plus text),
a `BinanceRequestException` (text only), or any other exception. -/
inductive ApiCall (δ : Type) where
  | ok (data : δ)
  | apiExn (code : ℤ) (text : String)
  | reqExn (text : String)
  | otherExn (text : String)

/-- `get_oders` (tools/get_orders.py lines 18-52).  `clientAcq` is the
outcome of `get_binance_client()` (an `Except.error` models the
`RuntimeError` it raises on bad configuration); `fetch` is
`client.get_all_orders` applied to the normalized symbol.  `ValueError`
from validation and `RuntimeError` from client acquisition are only caught
by the final `except Exception` clause, hence map to `internal_error`; a
`BinanceAPIException` maps to `api_error` with the exchange code; a
`BinanceRequestException` is not matched by that clause and also falls
through to `internal_error`. -/
def get_oders {δ : Type} (clientAcq : Except String Unit)
    (fetch : String → ApiCall δ) (symbol : String) : Resp (String × δ) :=
  match validate_symbol symbol with
  | .error e => .err (create_error_response "internal_error" e none)
  | .ok ns =>
    match clientAcq with
    | .error e => .err (create_error_response "internal_error" e none)
    | .ok _ =>
      match fetch ns with
      | .ok orders => .ok (ns, orders)
      | .apiExn code text =>
        .err (create_error_response "api_error" ("Binance API Error: " ++ text)
          (some [("code", DetailValue.int code)]))
      | .reqExn text => .err (create_error_response "internal_error" text none)
      | .otherExn text => .err (create_error_response "internal_error" text none)

/-- `create_order` (tools/create_order.py lines 27-102).  The client is
acquired first; then symbol, side and order type are validated (their
`ValueError`s are caught by the final `except Exception` clause, hence map
to `tool_error`); a non-positive quantity returns `validation_error`
directly; `BinanceAPIException` and `BinanceRequestException` from the
order call both map to `binance_api_error`; any other exception maps to
`tool_error`.  `place` is `client.create_order` on the validated
arguments. -/
def create_order {δ : Type} (clientAcq : Except String Unit)
    (place : String → String → String → ℚ → Option ℚ → ApiCall δ)
    (symbol side order_type : String) (quantity : ℚ) (price : Option ℚ) :
    Resp δ :=
  match clientAcq with
  | .error e => .err (create_error_response "tool_error" ("Tool execution failed: " ++ e) none)
  | .ok _ =>
    match validate_symbol symbol with
    | .error e => .err (create_error_response "tool_error" ("Tool execution failed: " ++ e) none)
    | .ok ns =>
      match validate_and_get_order_side side with
      | .error e => .err (create_error_response "tool_error" ("Tool execution failed: " ++ e) none)
      | .ok sd =>
        match validate_and_get_order_type order_type with
        | .error e => .err (create_error_response "tool_error" ("Tool execution failed: " ++ e) none)
        | .ok ot =>
          if quantity ≤ 0 then
            .err (create_error_response "validation_error"
              "Invalid quantity. Must be greater than zero." none)
          else
            match place ns sd ot quantity price with
            | .ok order => .ok order
            | .apiExn _ text =>
              .err (create_error_response "binance_api_error" ("Error creating order: " ++ text) none)
            | .reqExn text =>
              .err (create_error_response "binance_api_error" ("Error creating order: " ++ text) none)
            | .otherExn text =>
              .err (create_error_response "tool_error" ("Tool execution failed: " ++ text) none)

/-- The closed error taxonomy of the specification (§7). -/
def errorTaxonomy : List String :=
  ["validation_error", "rate_limit_exceeded", "binance_api_error",
   "internal_error", "tool_error"]

/-! ## Theorems -/

/-- C8: `estimate_weight_for_depth` is a pure function of its limit
argument satisfying the exact step table: an absent or unparsable limit
yields 5; a limit of at most 50 yields 2; at most 100 yields 5; at most
500 yields 10; at most 1000 yields 20; any larger limit yields 50. -/
theorem estimate_weight_for_depth_spec :
    estimate_weight_for_depth .absent = 5 ∧
    estimate_weight_for_depth .unparsable = 5 ∧
    ∀ l : ℤ,
      (l ≤ 50 → estimate_weight_for_depth (.intVal l) = 2) ∧
      (50 < l → l ≤ 100 → estimate_weight_for_depth (.intVal l) = 5) ∧
      (100 < l → l ≤ 500 → estimate_weight_for_depth (.intVal l) = 10) ∧
      (500 < l → l ≤ 1000 → estimate_weight_for_depth (.intVal l) = 20) ∧
      (1000 < l → estimate_weight_for_depth (.intVal l) = 50) := by
  refine ⟨rfl, rfl, fun l => ⟨?_, ?_, ?_, ?_, ?_⟩⟩ <;>
    intros <;> simp only [estimate_weight_for_depth] <;> split_ifs <;> omega

/-- C8 witness: the step table evaluated at the spec's sample points. -/
theorem estimate_weight_for_depth_spec_witness :
    estimate_weight_for_depth (.intVal 5) = 2 ∧
    estimate_weight_for_depth (.intVal 100) = 5 ∧
    estimate_weight_for_depth (.intVal 500) = 10 ∧
    estimate_weight_for_depth (.intVal 1000) = 20 ∧
    estimate_weight_for_depth (.intVal 5000) = 50 :=
  ⟨(estimate_weight_for_depth_spec.2.2 5).1 (by decide),
   (estimate_weight_for_depth_spec.2.2 100).2.1 (by decide) (by decide),
   (estimate_weight_for_depth_spec.2.2 500).2.2.1 (by decide) (by decide),
   (estimate_weight_for_depth_spec.2.2 1000).2.2.2.1 (by decide) (by decide),
   (estimate_weight_for_depth_spec.2.2 5000).2.2.2.2 (by decide)⟩

/-- C10: `validate_limit_parameter` passes `None` through as valid, accepts
a present integer unchanged exactly when it is strictly positive and at
most `max_limit` (default 5000), and fails otherwise. -/
theorem validate_limit_parameter_spec :
    (∀ m : ℤ, validate_limit_parameter none m = .ok none) ∧
    (∀ l m : ℤ, validate_limit_parameter (some l) m = .ok (some l) ↔ 0 < l ∧ l ≤ m) ∧
    (∀ l m : ℤ, l ≤ 0 ∨ m < l → ∃ e, validate_limit_parameter (some l) m = .error e) ∧
    (∀ l : ℤ, 0 < l → l ≤ 5000 → validate_limit_parameter (some l) 5000 = .ok (some l)) := by
  refine ⟨fun m => rfl, fun l m => ?_, fun l m h => ?_, fun l h1 h2 => ?_⟩
  · simp only [validate_limit_parameter]
    split_ifs <;> simp <;> omega
  · simp only [validate_limit_parameter]
    split_ifs with h1 h2
    · exact ⟨_, rfl⟩
    · exact ⟨_, rfl⟩
    · omega
  · simp only [validate_limit_parameter]
    split_ifs <;> first | rfl | omega

/-- C10 witness: a present valid limit, the `None` case, and a rejected
oversized limit, all through the main theorem. -/
theorem validate_limit_parameter_spec_witness :
    validate_limit_parameter none 5000 = .ok none ∧
    validate_limit_parameter (some 100) 5000 = .ok (some 100) ∧
    (∃ e, validate_limit_parameter (some 6000) 5000 = .error e) :=
  ⟨validate_limit_parameter_spec.1 5000,
   (validate_limit_parameter_spec.2.1 100 5000).mpr (by decide),
   validate_limit_parameter_spec.2.2.1 6000 5000 (Or.inr (by decide))⟩

/-- When the clock has not advanced past `last_refill`, `_refill` is the
identity (the `elapsed <= 0` early return). -/
theorem refill_no_elapse (st : WeightedRateLimiter) (now : ℚ)
    (h : now ≤ st.last_refill) : st._refill now = st := by
  simp only [WeightedRateLimiter._refill]
  rw [if_pos (by linarith : now - st.last_refill ≤ 0)]

/-- Under a monotone clock and the capacity bound, `_refill` computes
exactly the spec formula `min(capacity, tokens + elapsed * rate)` and
advances `last_refill`. -/
theorem refill_formula (st : WeightedRateLimiter) (now : ℚ)
    (h1 : st.last_refill ≤ now) (h2 : st.tokens ≤ (st.capacity : ℚ)) :
    st._refill now =
      { st with
        tokens := min (st.capacity : ℚ)
          (st.tokens + (now - st.last_refill) * st.refill_rate)
        last_refill := now } := by
  simp only [WeightedRateLimiter._refill]
  by_cases h : now - st.last_refill ≤ 0
  · rw [if_pos h]
    have hnow : now = st.last_refill := by linarith
    subst hnow
    simp [min_eq_right h2]
  · rw [if_neg h]

/-- C2 (amended): `try_consume` refills to
`min(capacity, tokens + elapsed * refill_rate)`, coerces the cost to
`max(1, cost)`, subtracts it and answers `true` exactly when the refilled
count covers the coerced cost, otherwise answers `false` leaving the
refilled count unchanged; the constructor coerces the capacity and the
per-minute refill amount to at least 1, so the per-second `refill_rate`
equals `max(1, refill_per_minute) / 60` and is at least `1/60` (not
necessarily at least 1). -/
theorem try_consume_spec :
    (∀ (st : WeightedRateLimiter) (cost : ℤ) (now : ℚ),
      st.tokens ≤ (st.capacity : ℚ) → st.last_refill ≤ now →
      st.try_consume cost now =
        (if ((max 1 cost : ℤ) : ℚ) ≤
            min (st.capacity : ℚ)
              (st.tokens + (now - st.last_refill) * st.refill_rate) then
          ({ st with
              tokens := min (st.capacity : ℚ)
                  (st.tokens + (now - st.last_refill) * st.refill_rate) -
                ((max 1 cost : ℤ) : ℚ)
              last_refill := now }, true)
        else
          ({ st with
              tokens := min (st.capacity : ℚ)
                (st.tokens + (now - st.last_refill) * st.refill_rate)
              last_refill := now }, false))) ∧
    (∀ (capacity refill_per_minute : ℤ) (t0 : ℚ),
      (WeightedRateLimiter.init capacity refill_per_minute t0).capacity
          = max 1 capacity ∧
      1 ≤ (WeightedRateLimiter.init capacity refill_per_minute t0).capacity ∧
      (WeightedRateLimiter.init capacity refill_per_minute t0).refill_rate
          = ((max 1 refill_per_minute : ℤ) : ℚ) / 60 ∧
      1 / 60 ≤ (WeightedRateLimiter.init capacity refill_per_minute t0).refill_rate ∧
      (WeightedRateLimiter.init capacity refill_per_minute t0).tokens
          = ((max 1 capacity : ℤ) : ℚ)) := by
  constructor
  · intro st cost now h2 h1
    simp only [WeightedRateLimiter.try_consume]
    rw [refill_formula st now h1 h2]
  · intro capacity refill_per_minute t0
    refine ⟨rfl, le_max_left 1 capacity, rfl, ?_, rfl⟩
    simp only [WeightedRateLimiter.init]
    have h : (1 : ℚ) ≤ ((max 1 refill_per_minute : ℤ) : ℚ) := by
      exact_mod_cast le_max_left 1 refill_per_minute
    linarith

/-- C2 witness: a bucket with capacity 10, half a token per second, 5
tokens, queried 2 seconds later for cost 3: it refills to 6 tokens,
admits, and leaves 3 tokens. -/
theorem try_consume_spec_witness :
    WeightedRateLimiter.try_consume ⟨10, 1/2, 5, 0⟩ 3 2 = (⟨10, 1/2, 3, 2⟩, true) := by
  have h := try_consume_spec.1 ⟨10, 1/2, 5, 0⟩ 3 2 (by norm_num) (by norm_num)
  rw [h]
  norm_num

/-- C2 counterexample: with `refill_per_minute = 30` the constructed
`refill_rate` is `1/2 < 1`, so the constructor does not coerce the
(per-second) refill rate to be at least 1. -/
theorem refill_rate_below_one :
    (WeightedRateLimiter.init 10 30 0).refill_rate = 1 / 2 ∧
    (WeightedRateLimiter.init 10 30 0).refill_rate < 1 := by
  constructor <;> norm_num [WeightedRateLimiter.init]

/-- A freshly constructed bucket satisfies the bucket invariant. -/
theorem bucketInv_init (capacity refill_per_minute : ℤ) (t0 : ℚ) :
    BucketInv (WeightedRateLimiter.init capacity refill_per_minute t0) := by
  have hc : (1 : ℚ) ≤ ((max 1 capacity : ℤ) : ℚ) := by
    exact_mod_cast le_max_left 1 capacity
  have hr : (1 : ℚ) ≤ ((max 1 refill_per_minute : ℤ) : ℚ) := by
    exact_mod_cast le_max_left 1 refill_per_minute
  refine ⟨le_max_left 1 capacity, ?_, ?_, le_refl _⟩
  · simp only [WeightedRateLimiter.init]
    positivity
  · simp only [WeightedRateLimiter.init]
    linarith

/-- `_refill` preserves the bucket invariant (for an arbitrary clock
reading, including one in the past). -/
theorem bucketInv_refill (st : WeightedRateLimiter) (now : ℚ)
    (h : BucketInv st) : BucketInv (st._refill now) := by
  obtain ⟨h1, h2, h3, h4⟩ := h
  simp only [WeightedRateLimiter._refill]
  split_ifs with he
  · exact ⟨h1, h2, h3, h4⟩
  · refine ⟨h1, h2, ?_, min_le_left _ _⟩
    have hel : (0 : ℚ) ≤ (now - st.last_refill) * st.refill_rate := by
      have : (0 : ℚ) ≤ now - st.last_refill := by linarith
      positivity
    have hcap : (0 : ℚ) ≤ (st.capacity : ℚ) := by
      have : (1 : ℚ) ≤ (st.capacity : ℚ) := by exact_mod_cast h1
      linarith
    exact le_min hcap (by linarith)

/-- `try_consume` preserves the bucket invariant. -/
theorem bucketInv_try_consume (st : WeightedRateLimiter) (cost : ℤ) (now : ℚ)
    (h : BucketInv st) : BucketInv (st.try_consume cost now).1 := by
  have hr := bucketInv_refill st now h
  obtain ⟨h1, h2, h3, h4⟩ := hr
  simp only [WeightedRateLimiter.try_consume]
  split_ifs with hc
  · have hcpos : (0 : ℚ) ≤ ((max 1 cost : ℤ) : ℚ) := by
      have : (1 : ℤ) ≤ max 1 cost := le_max_left 1 cost
      exact_mod_cast le_trans (by norm_num) this
    refine ⟨h1, h2, ?_, ?_⟩ <;> dsimp only <;> linarith
  · exact ⟨h1, h2, h3, h4⟩

/-- `refund` preserves the bucket invariant. -/
theorem bucketInv_refund (st : WeightedRateLimiter) (cost : ℤ)
    (h : BucketInv st) : BucketInv (st.refund cost) := by
  obtain ⟨h1, h2, h3, h4⟩ := h
  simp only [WeightedRateLimiter.refund]
  refine ⟨h1, h2, ?_, min_le_left _ _⟩
  have hcpos : (0 : ℚ) ≤ ((max 1 cost : ℤ) : ℚ) := by
    have : (1 : ℤ) ≤ max 1 cost := le_max_left 1 cost
    exact_mod_cast le_trans (by norm_num) this
  have hcap : (0 : ℚ) ≤ (st.capacity : ℚ) := by
    have : (1 : ℚ) ≤ (st.capacity : ℚ) := by exact_mod_cast h1
    linarith
  exact le_min hcap (by linarith)

/-- Every single operation preserves the bucket invariant. -/
theorem bucketInv_applyLimOp (st : WeightedRateLimiter) (op : LimOp)
    (h : BucketInv st) : BucketInv (applyLimOp st op) := by
  cases op with
  | consume cost now => exact bucketInv_try_consume st cost now h
  | refundOp cost => exact bucketInv_refund st cost h

/-- The bucket invariant is preserved by any operation sequence. -/
theorem bucketInv_foldl (ops : List LimOp) :
    ∀ st : WeightedRateLimiter, BucketInv st →
      BucketInv (ops.foldl applyLimOp st) := by
  induction ops with
  | nil => intro st h; exact h
  | cons op rest ih =>
    intro st h
    exact ih (applyLimOp st op) (bucketInv_applyLimOp st op h)

/-- C6: starting from any constructed `WeightedRateLimiter`, after any
sequence of `try_consume` and `refund` operations (with arbitrary costs
and clock readings) the token count stays within `[0, capacity]`. -/
theorem tokens_within_bounds (capacity refill_per_minute : ℤ) (t0 : ℚ)
    (ops : List LimOp) :
    0 ≤ (ops.foldl applyLimOp (WeightedRateLimiter.init capacity refill_per_minute t0)).tokens ∧
    (ops.foldl applyLimOp (WeightedRateLimiter.init capacity refill_per_minute t0)).tokens
      ≤ ((ops.foldl applyLimOp (WeightedRateLimiter.init capacity refill_per_minute t0)).capacity : ℚ) := by
  have h := bucketInv_foldl ops _ (bucketInv_init capacity refill_per_minute t0)
  exact ⟨h.2.2.1, h.2.2.2⟩

/-- At a fixed instant (no elapsed time), `try_consume` is a pure
conditional subtraction of the coerced cost. -/
theorem try_consume_no_elapse (st : WeightedRateLimiter) (cost : ℤ) (now : ℚ)
    (h : now ≤ st.last_refill) :
    st.try_consume cost now =
      if ((max 1 cost : ℤ) : ℚ) ≤ st.tokens then
        ({ st with tokens := st.tokens - ((max 1 cost : ℤ) : ℚ) }, true)
      else (st, false) := by
  simp only [WeightedRateLimiter.try_consume]
  rw [refill_no_elapse st now h]

/-- C1: at a fixed instant, `MultiWindowRateLimiter.try_consume` consults
the per-second bucket first, and on every denial — whether the per-second
bucket refuses, or it accepts and the per-minute bucket refuses and the
per-second tokens are refunded — leaves both token counts exactly as they
were; it answers `true` exactly when both buckets hold at least the
coerced cost. -/
theorem multiwindow_net_zero (mw : MultiWindowRateLimiter) (cost : ℤ)
    (now1 now2 : ℚ)
    (hcap : mw.second.tokens ≤ (mw.second.capacity : ℚ))
    (h1 : now1 ≤ mw.second.last_refill) (h2 : now2 ≤ mw.minute.last_refill) :
    ((mw.try_consume cost now1 now2).2 = false →
      (mw.try_consume cost now1 now2).1.second.tokens = mw.second.tokens ∧
      (mw.try_consume cost now1 now2).1.minute.tokens = mw.minute.tokens) ∧
    ((mw.try_consume cost now1 now2).2 = true ↔
      ((max 1 cost : ℤ) : ℚ) ≤ mw.second.tokens ∧
      ((max 1 cost : ℤ) : ℚ) ≤ mw.minute.tokens) := by
  by_cases hcs : ((max 1 cost : ℤ) : ℚ) ≤ mw.second.tokens
  · have e1 : mw.second.try_consume cost now1 =
        ({ mw.second with tokens := mw.second.tokens - ((max 1 cost : ℤ) : ℚ) }, true) := by
      rw [try_consume_no_elapse mw.second cost now1 h1, if_pos hcs]
    by_cases hcm : ((max 1 cost : ℤ) : ℚ) ≤ mw.minute.tokens
    · have e2 : mw.minute.try_consume cost now2 =
          ({ mw.minute with tokens := mw.minute.tokens - ((max 1 cost : ℤ) : ℚ) }, true) := by
        rw [try_consume_no_elapse mw.minute cost now2 h2, if_pos hcm]
      have emw : mw.try_consume cost now1 now2 =
          ({ minute := { mw.minute with tokens := mw.minute.tokens - ((max 1 cost : ℤ) : ℚ) }
             second := { mw.second with tokens := mw.second.tokens - ((max 1 cost : ℤ) : ℚ) } },
           true) := by
        simp only [MultiWindowRateLimiter.try_consume, e1, e2]
        rfl
      rw [emw]
      exact ⟨fun hf => Bool.noConfusion hf, iff_of_true rfl ⟨hcs, hcm⟩⟩
    · have e2 : mw.minute.try_consume cost now2 = (mw.minute, false) := by
        rw [try_consume_no_elapse mw.minute cost now2 h2, if_neg hcm]
      have erefund :
          WeightedRateLimiter.refund
            { mw.second with tokens := mw.second.tokens - ((max 1 cost : ℤ) : ℚ) } cost
            = mw.second := by
        simp only [WeightedRateLimiter.refund]
        rw [sub_add_cancel, min_eq_right hcap]
      have emw : mw.try_consume cost now1 now2 = (mw, false) := by
        simp only [MultiWindowRateLimiter.try_consume, e1, e2, erefund]
        rfl
      rw [emw]
      exact ⟨fun _ => ⟨rfl, rfl⟩,
        iff_of_false (fun h => Bool.noConfusion h) (fun h => hcm h.2)⟩
  · have e1 : mw.second.try_consume cost now1 = (mw.second, false) := by
      rw [try_consume_no_elapse mw.second cost now1 h1, if_neg hcs]
    have emw : mw.try_consume cost now1 now2 = (mw, false) := by
      simp only [MultiWindowRateLimiter.try_consume, e1]
      rfl
    rw [emw]
    exact ⟨fun _ => ⟨rfl, rfl⟩,
      iff_of_false (fun h => Bool.noConfusion h) (fun h => hcs h.1)⟩

/-- C1 witness: second bucket `⟨2, 2, 2, 0⟩`, minute bucket `⟨6, 1/10, 1, 0⟩`,
cost 2: the per-second bucket accepts, the per-minute bucket refuses, and
after the refund both token counts are unchanged and the call is denied. -/
theorem multiwindow_net_zero_witness :
    (MultiWindowRateLimiter.try_consume ⟨⟨6, 1/10, 1, 0⟩, ⟨2, 2, 2, 0⟩⟩ 2 0 0).2 = false ∧
    (MultiWindowRateLimiter.try_consume ⟨⟨6, 1/10, 1, 0⟩, ⟨2, 2, 2, 0⟩⟩ 2 0 0).1.second.tokens = 2 ∧
    (MultiWindowRateLimiter.try_consume ⟨⟨6, 1/10, 1, 0⟩, ⟨2, 2, 2, 0⟩⟩ 2 0 0).1.minute.tokens = 1 := by
  have h := multiwindow_net_zero ⟨⟨6, 1/10, 1, 0⟩, ⟨2, 2, 2, 0⟩⟩ 2 0 0
    (by norm_num) (by norm_num) (by norm_num)
  have hfalse : (MultiWindowRateLimiter.try_consume ⟨⟨6, 1/10, 1, 0⟩, ⟨2, 2, 2, 0⟩⟩ 2 0 0).2 = false := by
    rcases hb : (MultiWindowRateLimiter.try_consume ⟨⟨6, 1/10, 1, 0⟩, ⟨2, 2, 2, 0⟩⟩ 2 0 0).2 with _ | _
    · rfl
    · have := h.2.mp hb
      norm_num at this
  have hz := h.1 hfalse
  exact ⟨hfalse, hz.1, hz.2⟩

/-- C3: the dispatch wrapper computes the weight (a callable cost is
evaluated on the call's arguments with fallback 1 if it raises; a constant
cost is floored at 1), consults the limiter's `try_consume` with that
weight, and on denial returns a `rate_limit_exceeded` envelope whose
details carry the attempted weight, without invoking the wrapped
operation (the result is independent of it); on admission it invokes the
operation and returns its result untransformed. -/
theorem rate_limited_spec {σ α β : Type} (tryC : σ → ℤ → σ × Bool) (rl : σ)
    (cost : CostSpec α) (func : α → β) (args : α) :
    ((tryC rl (computeWeight cost args)).2 = false →
      (rateLimitedCall tryC rl cost func args).2 =
        Sum.inr (rateLimitEnvelope (computeWeight cost args)) ∧
      (rateLimitEnvelope (computeWeight cost args)).type = "rate_limit_exceeded" ∧
      (rateLimitEnvelope (computeWeight cost args)).details =
        some [("weight", DetailValue.int (computeWeight cost args))] ∧
      ∀ func' : α → β,
        rateLimitedCall tryC rl cost func' args =
          rateLimitedCall tryC rl cost func args) ∧
    ((tryC rl (computeWeight cost args)).2 = true →
      (rateLimitedCall tryC rl cost func args).2 = Sum.inl (func args)) ∧
    (∀ f : α → Except Unit ℤ, cost = CostSpec.fn f →
      (∀ u, f args = Except.error u → computeWeight cost args = 1) ∧
      (∀ n, f args = Except.ok n → computeWeight cost args = n)) ∧
    (∀ n : ℤ, cost = CostSpec.const n → computeWeight cost args = max 1 n) := by
  refine ⟨fun hdeny => ⟨?_, rfl, ?_, ?_⟩, fun hallow => ?_, ?_, ?_⟩
  · simp only [rateLimitedCall, hdeny]
    rfl
  · simp only [rateLimitEnvelope, create_error_response, _sanitize_error_details,
      List.map, sanitizeDetailEntry]
    rw [if_neg (by decide)]
  · intro func'
    simp only [rateLimitedCall, hdeny]
    rfl
  · simp only [rateLimitedCall, hallow]
    rfl
  · intro f hf
    subst hf
    constructor
    · intro u hu
      simp only [computeWeight, hu]
    · intro n hn
      simp only [computeWeight, hn]
  · intro n hn
    subst hn
    rfl

/-- C3 witness: a limiter that always denies and a constant cost 3: the
wrapper returns the `rate_limit_exceeded` envelope carrying weight 3
instead of invoking the operation. -/
theorem rate_limited_spec_witness :
    (rateLimitedCall (fun (s : Unit) _ => (s, false)) () (CostSpec.const 3)
        (fun (_ : Unit) => (0 : ℤ)) ()).2 =
      Sum.inr (rateLimitEnvelope 3) ∧
    (rateLimitEnvelope 3).details = some [("weight", DetailValue.int 3)] :=
  ⟨((rate_limited_spec (fun (s : Unit) _ => (s, false)) () (CostSpec.const 3)
      (fun (_ : Unit) => (0 : ℤ)) ()).1 rfl).1,
   ((rate_limited_spec (fun (s : Unit) _ => (s, false)) () (CostSpec.const 3)
      (fun (_ : Unit) => (0 : ℤ)) ()).1 rfl).2.2.1⟩

/-- Filtering keeps only elements satisfying the predicate. -/
theorem all_filter_isAlnumA (l : List Char) :
    (l.filter isAlnumA).all isAlnumA = true :=
  List.all_eq_true.mpr (fun _c hc => (List.mem_filter.mp hc).2)

/-- C7: `validate_symbol` accepts exactly the inputs that are nonempty,
whose uppercased-and-trimmed form has length between 3 and 20, whose
alphanumeric-filtered form still has length at least 3 and neither starts
with a digit nor is purely numeric; on acceptance it returns exactly that
fully normalized (uppercased, trimmed, filtered) symbol, and on the spec's
samples: `"BTCUSDT"` and `"btcusdt "` yield `"BTCUSDT"` while `"BT"`,
`"123ABC"` and `"123$%"` fail. -/
theorem validate_symbol_spec :
    (∀ (s : String) (t : String),
      validate_symbol s = .ok t ↔
        (s.data ≠ [] ∧
         3 ≤ (pyStrip (s.data.map Char.toUpper)).length ∧
         (pyStrip (s.data.map Char.toUpper)).length ≤ 20 ∧
         3 ≤ (List.filter isAlnumA (pyStrip (s.data.map Char.toUpper))).length ∧
         headIsDigit (List.filter isAlnumA (pyStrip (s.data.map Char.toUpper))) = false ∧
         pyIsDigit (List.filter isAlnumA (pyStrip (s.data.map Char.toUpper))) = false ∧
         t = String.mk (List.filter isAlnumA (pyStrip (s.data.map Char.toUpper))))) ∧
    validate_symbol "BTCUSDT" = .ok "BTCUSDT" ∧
    validate_symbol "btcusdt " = .ok "BTCUSDT" ∧
    validate_symbol "BT" = .error "Symbol must be at least 3 characters long" ∧
    validate_symbol "123ABC" = .error "Symbol cannot start with a number or be purely numeric" ∧
    validate_symbol "123$%" = .error "Symbol cannot start with a number or be purely numeric" := by
  refine ⟨?_, rfl, rfl, rfl, rfl, rfl⟩
  intro s t
  simp only [validate_symbol]
  split_ifs with h1 h2 h3 h4 h5 h6
  · refine ⟨False.elim, ?_⟩
    rintro ⟨hne, -⟩
    cases hd : s.data with
    | nil => exact hne hd
    | cons a l => rw [hd] at h1; exact absurd h1 (by simp)
  · refine ⟨False.elim, ?_⟩
    rintro ⟨-, hl, -⟩
    omega
  · refine ⟨False.elim, ?_⟩
    rintro ⟨-, -, hl, -⟩
    omega
  · refine ⟨False.elim, ?_⟩
    rintro ⟨-, -, -, hl, -⟩
    omega
  · refine ⟨False.elim, ?_⟩
    rintro ⟨-, -, -, hlen, -⟩
    have hall := all_filter_isAlnumA (pyStrip (s.data.map Char.toUpper))
    have hne : (List.filter isAlnumA (pyStrip (s.data.map Char.toUpper))).isEmpty = false := by
      cases hsan : List.filter isAlnumA (pyStrip (s.data.map Char.toUpper)) with
      | nil => rw [hsan] at hlen; simp at hlen
      | cons a l => rfl
    rw [pyIsAlnum, hne, hall] at h5
    simp at h5
  · refine ⟨False.elim, ?_⟩
    rintro ⟨-, -, -, -, hh, hd, -⟩
    rw [hh, hd] at h6
    simp at h6
  · simp only [Bool.or_eq_true, not_or, Bool.not_eq_true] at h6
    constructor
    · intro h'
      injection h' with h''
      have hne : s.data ≠ [] := by
        intro hd
        exact h1 (by rw [hd]; rfl)
      exact ⟨hne, by omega, by omega, by omega, h6.1, h6.2, h''.symm⟩
    · rintro ⟨-, -, -, -, -, -, ht⟩
      rw [ht]

/-- C7 witness: the characterization applied to the concrete input
`"ethusdt"`, which normalizes to `"ETHUSDT"`. -/
theorem validate_symbol_spec_witness :
    validate_symbol "ethusdt" = .ok "ETHUSDT" :=
  (validate_symbol_spec.1 "ethusdt" "ETHUSDT").mpr (by decide)

/-- Projection of `create_error_response`: the `type` tag is stored
verbatim. -/
theorem create_error_response_type (ty msg : String)
    (d : Option (List (String × DetailValue))) :
    (create_error_response ty msg d).type = ty := rfl

/-- C4 (amended): every error envelope a tool returns carries a type in
the closed taxonomy extended with `api_error`: `get_oders` maps
`BinanceAPIException` to `api_error` (carrying the exchange's machine
code in its details) and everything else it catches to `internal_error`,
while `create_order` stays inside the closed taxonomy, mapping both
`BinanceAPIException` and `BinanceRequestException` to
`binance_api_error` (without the machine code). -/
theorem error_types_spec (δ : Type) (acq : Except String Unit)
    (fetch : String → ApiCall δ)
    (place : String → String → String → ℚ → Option ℚ → ApiCall δ)
    (sym side otype : String) (qty : ℚ) (price : Option ℚ) :
    (∀ e, get_oders acq fetch sym = .err e → e.type ∈ "api_error" :: errorTaxonomy) ∧
    (∀ e, create_order acq place sym side otype qty price = .err e →
      e.type ∈ errorTaxonomy) ∧
    (∀ ns code text, acq = .ok () → validate_symbol sym = .ok ns →
      fetch ns = .apiExn code text →
      get_oders acq fetch sym =
        .err { type := "api_error"
               message := _sanitize_error_message ("Binance API Error: " ++ text)
               details := some [("code", DetailValue.int code)] }) ∧
    (∀ ns sd ot code text, acq = .ok () → validate_symbol sym = .ok ns →
      validate_and_get_order_side side = .ok sd →
      validate_and_get_order_type otype = .ok ot → ¬qty ≤ 0 →
      place ns sd ot qty price = .apiExn code text →
      create_order acq place sym side otype qty price =
        .err { type := "binance_api_error"
               message := _sanitize_error_message ("Error creating order: " ++ text)
               details := none }) := by
  refine ⟨?_, ?_, ?_, ?_⟩
  · intro e he
    unfold get_oders at he
    split at he
    · injection he with h
      rw [← h, create_error_response_type]
      simp [errorTaxonomy]
    · split at he
      · injection he with h
        rw [← h, create_error_response_type]
        simp [errorTaxonomy]
      · split at he
        · exact Resp.noConfusion he
        · injection he with h
          rw [← h, create_error_response_type]
          simp
        · injection he with h
          rw [← h, create_error_response_type]
          simp [errorTaxonomy]
        · injection he with h
          rw [← h, create_error_response_type]
          simp [errorTaxonomy]
  · intro e he
    unfold create_order at he
    split at he
    · injection he with h
      rw [← h, create_error_response_type]
      simp [errorTaxonomy]
    · split at he
      · injection he with h
        rw [← h, create_error_response_type]
        simp [errorTaxonomy]
      · split at he
        · injection he with h
          rw [← h, create_error_response_type]
          simp [errorTaxonomy]
        · split at he
          · injection he with h
            rw [← h, create_error_response_type]
            simp [errorTaxonomy]
          · split at he
            · injection he with h
              rw [← h, create_error_response_type]
              simp [errorTaxonomy]
            · split at he
              · exact Resp.noConfusion he
              · injection he with h
                rw [← h, create_error_response_type]
                simp [errorTaxonomy]
              · injection he with h
                rw [← h, create_error_response_type]
                simp [errorTaxonomy]
              · injection he with h
                rw [← h, create_error_response_type]
                simp [errorTaxonomy]
  · intro ns code text ha hv hf
    subst ha
    simp only [get_oders, hv, hf]
    rfl
  · intro ns sd ot code text ha hv hsd hot hq hp
    subst ha
    simp only [create_order, hv, hsd, hot]
    rw [if_neg hq]
    simp only [hp]
    rfl

/-- C4 witness: a concrete API exception from `get_all_orders` surfaces as
an `api_error` envelope carrying the exchange code. -/
theorem error_types_spec_witness :
    @get_oders Unit (.ok ()) (fun _ => ApiCall.apiExn (-1121) "Unknown symbol.") "BTCUSDT" =
      .err { type := "api_error"
             message := _sanitize_error_message "Binance API Error: Unknown symbol."
             details := some [("code", DetailValue.int (-1121))] } :=
  (error_types_spec Unit (.ok ()) (fun _ => ApiCall.apiExn (-1121) "Unknown symbol.")
    (fun _ _ _ _ _ => ApiCall.ok ()) "BTCUSDT" "" "" 0 none).2.2.1
    "BTCUSDT" (-1121) "Unknown symbol." rfl rfl rfl

/-- C4 counterexample: `get_oders` surfaces a `BinanceAPIException` under
the tag `api_error`, which is not in the closed taxonomy
`{validation_error, rate_limit_exceeded, binance_api_error,
internal_error, tool_error}`. -/
theorem get_oders_api_error_outside_taxonomy :
    Resp.errType (@get_oders Unit (.ok ())
        (fun _ => ApiCall.apiExn (-1121) "Invalid symbol.") "BTCUSDT") =
      some "api_error" ∧
    "api_error" ∉ errorTaxonomy := by
  decide

/-- C5 (amended): validation failures are produced locally, before the
exchange method is invoked (the result does not depend on the client-call
outcome, which appears nowhere in the right-hand sides): in
`create_order`, an invalid symbol, side or order type yields a
`tool_error` envelope (their `ValueError` is caught by the generic
handler), while a non-positive quantity yields `validation_error`; in
`get_oders`, an invalid symbol yields `internal_error`, independently
even of client acquisition. -/
theorem validation_failures_local (δ : Type)
    (place : String → String → String → ℚ → Option ℚ → ApiCall δ)
    (fetch : String → ApiCall δ) (acq : Except String Unit)
    (sym side otype : String) (qty : ℚ) (price : Option ℚ) :
    (∀ e, validate_symbol sym = .error e →
      create_order (.ok ()) place sym side otype qty price =
        .err (create_error_response "tool_error" ("Tool execution failed: " ++ e) none)) ∧
    (∀ ns e, validate_symbol sym = .ok ns →
      validate_and_get_order_side side = .error e →
      create_order (.ok ()) place sym side otype qty price =
        .err (create_error_response "tool_error" ("Tool execution failed: " ++ e) none)) ∧
    (∀ ns sd e, validate_symbol sym = .ok ns →
      validate_and_get_order_side side = .ok sd →
      validate_and_get_order_type otype = .error e →
      create_order (.ok ()) place sym side otype qty price =
        .err (create_error_response "tool_error" ("Tool execution failed: " ++ e) none)) ∧
    (∀ ns sd ot, validate_symbol sym = .ok ns →
      validate_and_get_order_side side = .ok sd →
      validate_and_get_order_type otype = .ok ot → qty ≤ 0 →
      create_order (.ok ()) place sym side otype qty price =
        .err (create_error_response "validation_error"
          "Invalid quantity. Must be greater than zero." none)) ∧
    (∀ e, validate_symbol sym = .error e →
      get_oders acq fetch sym =
        .err (create_error_response "internal_error" e none)) := by
  refine ⟨?_, ?_, ?_, ?_, ?_⟩
  · intro e hv
    simp only [create_order, hv]
  · intro ns e hv hs
    simp only [create_order, hv, hs]
  · intro ns sd e hv hs ho
    simp only [create_order, hv, hs, ho]
  · intro ns sd ot hv hs ho hq
    simp only [create_order, hv, hs, ho]
    rw [if_pos hq]
  · intro e hv
    simp only [get_oders, hv]

/-- C5 witness: a non-positive quantity with otherwise valid arguments
yields the local `validation_error` envelope. -/
theorem validation_failures_local_witness :
    create_order (.ok ()) (fun _ _ _ _ _ => ApiCall.ok ()) "BTCUSDT" "BUY" "MARKET" (-1) none =
      .err (create_error_response "validation_error"
        "Invalid quantity. Must be greater than zero." none) :=
  (validation_failures_local Unit (fun _ _ _ _ _ => ApiCall.ok ())
    (fun _ => ApiCall.ok ()) (.ok ()) "BTCUSDT" "BUY" "MARKET" (-1) none).2.2.2.1
    "BTCUSDT" "BUY" "MARKET" rfl rfl rfl (by norm_num)

/-- C5 counterexample: `create_order` on the invalid symbol `"BT"` (with
otherwise valid arguments) returns an envelope of type `tool_error`, not
`validation_error`. -/
theorem create_order_invalid_symbol_tool_error :
    Resp.errType (@create_order Unit (.ok ()) (fun _ _ _ _ _ => ApiCall.ok ())
        "BT" "BUY" "MARKET" 1 none) = some "tool_error" ∧
    "tool_error" ≠ "validation_error" := by
  decide

/-- A list all of whose elements satisfy `p` is its own `takeWhile`. -/
theorem takeWhile_all_eq (p : Char → Bool) (l : List Char)
    (h : ∀ c ∈ l, p c = true) : List.takeWhile p l = l := by
  induction l with
  | nil => rfl
  | cons a t ih =>
    rw [List.takeWhile_cons_of_pos (h a (List.mem_cons_self a t))]
    rw [ih (fun c hc => h c (List.mem_cons_of_mem a hc))]

/-- The pattern-1 scanner leaves an empty input empty, whatever the fuel
and previous character. -/
theorem reSub1F_nil (fuel : ℕ) (prev : Option Char) :
    reSub1F fuel prev [] = [] := by
  cases fuel <;> rfl

/-- A fully alphanumeric string of length at least 32 is replaced whole by
pattern 1. -/
theorem reSub1_all_alnum (r : List Char) (hall : ∀ c ∈ r, isAlnumA c = true)
    (hlen : 32 ≤ r.length) : reSub1 r = redactedL := by
  cases r with
  | nil => simp at hlen
  | cons c cs =>
    have htake : List.takeWhile isAlnumA (c :: cs) = c :: cs :=
      takeWhile_all_eq isAlnumA (c :: cs) hall
    show reSub1F (c :: cs).length none (c :: cs) = redactedL
    rw [List.length_cons]
    rw [reSub1F]
    rw [htake, List.drop_length]
    rw [if_pos ⟨rfl, by simpa using hlen, rfl⟩]
    rw [reSub1F_nil, List.append_nil]

/-- Appending a non-matching head stops `takeWhile` exactly at the run. -/
theorem takeWhile_all_append (p : Char → Bool) (r : List Char) (d : Char)
    (tail : List Char) (hall : ∀ c ∈ r, p c = true) (hd : p d = false) :
    List.takeWhile p (r ++ d :: tail) = r := by
  induction r with
  | nil => simp [List.takeWhile_cons, hd]
  | cons a t ih =>
    rw [List.cons_append, List.takeWhile_cons_of_pos (hall a (List.mem_cons_self a t))]
    rw [ih (fun c hc => hall c (List.mem_cons_of_mem a hc))]

/-- Pattern 1 leaves a short (≤ 31) fully alphanumeric string unchanged,
whatever the fuel and previous character. -/
theorem reSub1F_short (fuel : ℕ) (prev : Option Char) (v : List Char)
    (hall : ∀ c ∈ v, isAlnumA c = true) (hlen : v.length ≤ 31) :
    reSub1F fuel prev v = v := by
  induction fuel generalizing prev v with
  | zero => rfl
  | succ f ih =>
    cases v with
    | nil => rfl
    | cons c cs =>
      rw [reSub1F, takeWhile_all_eq isAlnumA (c :: cs) hall]
      rw [if_neg (fun h => absurd h.2.1 (by omega))]
      rw [ih (some c) cs (fun x hx => hall x (List.mem_cons_of_mem c hx))
        (by simp at hlen ⊢; omega)]

/-- A fully alphanumeric token of length at least 32 surrounded by single
spaces is replaced by the marker under pattern 1. -/
theorem reSub1_spaced (r : List Char) (hall : ∀ c ∈ r, isAlnumA c = true)
    (hlen : 32 ≤ r.length) :
    reSub1 (' ' :: (r ++ [' '])) = ' ' :: (redactedL ++ [' ']) := by
  cases r with
  | nil => simp at hlen
  | cons c cs =>
    show reSub1F (' ' :: ((c :: cs) ++ [' '])).length none (' ' :: ((c :: cs) ++ [' '])) = _
    have hLen1 : (' ' :: ((c :: cs) ++ [' '])).length = (cs.length + 2) + 1 := by
      simp [List.length_append]
    rw [hLen1, reSub1F, List.takeWhile_cons_of_neg (by decide)]
    rw [if_neg (fun h => absurd h.2.1 (by decide))]
    congr 1
    have htake : List.takeWhile isAlnumA (c :: (cs ++ [' '])) = c :: cs :=
      takeWhile_all_append isAlnumA (c :: cs) ' ' [] hall (by decide)
    have hdrop : List.drop (c :: cs).length (c :: (cs ++ [' '])) = [' '] :=
      List.drop_left (c :: cs) [' ']
    show reSub1F ((cs.length + 1) + 1) (some ' ') (c :: (cs ++ [' '])) = redactedL ++ [' ']
    rw [reSub1F, htake]
    rw [hdrop]
    rw [if_pos ⟨by decide, by simpa using hlen, by decide⟩]
    congr 1
    rw [reSub1F, List.takeWhile_cons_of_neg (by decide)]
    rw [if_neg (fun h => absurd h.2.1 (by decide))]
    rw [reSub1F_nil]

/-- C9 (amended): an alphanumeric run of at least 32 characters standing
at word boundaries is replaced whole by the redaction marker — both when
it is the entire message and when it is delimited by non-word characters
such as spaces — while a qualifying run adjacent to a word character such
as `_` is exempt (`\b` finds no boundary there); the keyword patterns
redact api-key/secret/token/password key-value fragments; every detail
entry whose lowercased key is in the sensitive-key set has its value
replaced wholesale regardless of content; every other detail entry with a
string value has that value sanitized like a message. -/
theorem sanitize_spec :
    (∀ r : List Char, (∀ c ∈ r, isAlnumA c = true) → 32 ≤ r.length →
      _sanitize_error_message (String.mk r) = "[REDACTED]") ∧
    (∀ (d : List (String × DetailValue)) (k : String) (v : DetailValue),
      (k, v) ∈ d → pyLower k ∈ sensitiveKeys →
      (k, DetailValue.str "[REDACTED]") ∈ _sanitize_error_details d) ∧
    (∀ (d : List (String × DetailValue)) (k : String) (s : String),
      (k, DetailValue.str s) ∈ d → pyLower k ∉ sensitiveKeys →
      (k, DetailValue.str (_sanitize_error_message s)) ∈ _sanitize_error_details d) ∧
    (∀ r : List Char, (∀ c ∈ r, isAlnumA c = true) → 32 ≤ r.length →
      _sanitize_error_message (String.mk (' ' :: (r ++ [' ']))) = " [REDACTED] ") ∧
    _sanitize_error_message "secret: hunter2" = "[REDACTED]" ∧
    _sanitize_error_message "api-key=XYZ123" = "[REDACTED]" ∧
    _sanitize_error_message "token: abc" = "[REDACTED]" ∧
    _sanitize_error_message "Password=hunter2" = "[REDACTED]" := by
  refine ⟨?_, ?_, ?_, ?_, by decide, by decide, by decide, by decide⟩
  · intro r hall hlen
    show String.mk (sanitizeMsgL r) = "[REDACTED]"
    rw [sanitizeMsgL, reSub1_all_alnum r hall hlen]
    decide
  · intro d k v hm hk
    have : sanitizeDetailEntry (k, v) = (k, DetailValue.str "[REDACTED]") := by
      simp only [sanitizeDetailEntry]
      rw [if_pos hk]
    exact this ▸ List.mem_map_of_mem sanitizeDetailEntry hm
  · intro d k s hm hk
    have : sanitizeDetailEntry (k, DetailValue.str s) =
        (k, DetailValue.str (_sanitize_error_message s)) := by
      simp only [sanitizeDetailEntry]
      rw [if_neg hk]
    exact this ▸ List.mem_map_of_mem sanitizeDetailEntry hm
  · intro r hall hlen
    show String.mk (sanitizeMsgL (' ' :: (r ++ [' ']))) = " [REDACTED] "
    rw [sanitizeMsgL, reSub1_spaced r hall hlen]
    decide

/-- C9 witness: a 32-character alphanumeric token alone is fully redacted,
and an `api_key` detail entry is replaced wholesale even when its value is
not a string. -/
theorem sanitize_spec_witness :
    _sanitize_error_message (String.mk (List.replicate 32 'a')) = "[REDACTED]" ∧
    ("api_key", DetailValue.str "[REDACTED]") ∈
      _sanitize_error_details [("api_key", DetailValue.int 99)] :=
  ⟨sanitize_spec.1 (List.replicate 32 'a') (by decide) (by decide),
   sanitize_spec.2.1 [("api_key", DetailValue.int 99)] "api_key"
     (DetailValue.int 99) (by simp) (by decide)⟩

/-- C9 counterexample: in the message `"_"` followed by 32 `a`s, the
32-character alphanumeric run is adjacent to an underscore (a regex word
character), so no pattern matches and the message passes through the
sanitizer unchanged — the run is not replaced by any redaction marker. -/
theorem long_run_not_redacted :
    _sanitize_error_message "_aaaaaaaaaaaaaaaaaaaaaaaaaaaaaaaa" =
      "_aaaaaaaaaaaaaaaaaaaaaaaaaaaaaaaa" ∧
    (("_aaaaaaaaaaaaaaaaaaaaaaaaaaaaaaaa".data.drop 1).takeWhile isAlnumA).length = 32 ∧
    '[' ∉ "_aaaaaaaaaaaaaaaaaaaaaaaaaaaaaaaa".data := by
  refine ⟨?_, by decide, by decide⟩
  decide
